import Mathlib

/-!
Shallow embedding of the mllwriter crate (src/src/lib.rs).

Rust `String`s are modelled as `List Char` (all strings manipulated by the
writers are built from ASCII pieces, so byte-based operations such as
`String::truncate`/`String::len` coincide with the character-based ones used
here). `Vec::push`/`Vec::pop` on the block stack (push/pop at the end) is
modelled as list cons / head-match, the standard list-as-stack discipline.
Methods that can panic in Rust (`assert!` in `assert_html_notation`,
`Option::unwrap` on `Vec::pop`) are modelled as `Option`-returning functions,
`none` meaning the panic.
-/

abbrev Str := List Char

/-- Embeds `assert_html_notation` (lib.rs:672-675): every character is ASCII
alphanumeric, and every ASCII-alphabetic character is lowercase. Returns a
`Bool` (`false` = the Rust assertion panics). `Char.isAlphanum`/`Char.isAlpha`
/`Char.isLower` in Lean are the ASCII ranges, matching Rust
`is_ascii_alphanumeric`/`is_ascii_alphabetic`, and Unicode `is_lowercase`
restricted to ASCII letters. -/
def assert_html_notation (tag : Str) : Bool :=
  tag.all (fun c => c.isAlphanum) &&
  (tag.filter (fun c => c.isAlpha)).all (fun c => c.isLower)

/-- Embeds `WriterCore` (lib.rs:146-153). -/
structure WriterCore where
  indent_step_size : Nat
  indent : Str
  block_stack : List Str
deriving DecidableEq

namespace WriterCore

/-- `WriterCore::new` (lib.rs:158-164). -/
def new (indent_step_size : Nat) : WriterCore :=
  { indent_step_size := indent_step_size, indent := [], block_stack := [] }

/-- `WriterCore::clear` (lib.rs:167-171): sets the step size to the given
value, empties the indent and the block stack. -/
def clear (_w : WriterCore) (indent_step : Nat) : WriterCore :=
  { indent_step_size := indent_step, indent := [], block_stack := [] }

/-- `WriterCore::line_feed` (lib.rs:174-177): pushes `n` newlines then the
current indent onto the content. -/
def line_feed (w : WriterCore) (content : Str) (n : Nat) : Str :=
  content ++ List.replicate n '\n' ++ w.indent

/-- `WriterCore::inc_indent_step` (lib.rs:192-194). -/
def inc_indent_step (w : WriterCore) : WriterCore :=
  { w with indent := w.indent ++ List.replicate w.indent_step_size ' ' }

/-- `WriterCore::dec_indent_step` (lib.rs:197-204). -/
def dec_indent_step (w : WriterCore) : WriterCore :=
  if w.indent_step_size > w.indent.length then
    { w with indent := [] }
  else
    { w with indent := w.indent.take (w.indent.length - w.indent_step_size) }

/-- `WriterCore::line_feed_inc` (lib.rs:180-183): increment then line feed. -/
def line_feed_inc (w : WriterCore) (content : Str) : WriterCore × Str :=
  let w' := w.inc_indent_step
  (w', w'.line_feed content 1)

/-- `WriterCore::line_feed_dec` (lib.rs:186-189): decrement then line feed. -/
def line_feed_dec (w : WriterCore) (content : Str) : WriterCore × Str :=
  let w' := w.dec_indent_step
  (w', w'.line_feed content 1)

/-- `WriterCore::set_indent_step` (lib.rs:207-209). -/
def set_indent_step (w : WriterCore) (indent_step : Nat) : WriterCore :=
  { w with indent := List.replicate (indent_step * w.indent_step_size) ' ' }

/-- `WriterCore::set_indent_step_size` (lib.rs:212-214). -/
def set_indent_step_size (w : WriterCore) (indent_step_size : Nat) : WriterCore :=
  { w with indent_step_size := indent_step_size }

end WriterCore

/-- Embeds `HTMLWriter` (lib.rs:222-228). -/
structure HTMLWriter where
  content : Str
  core : WriterCore
deriving DecidableEq

namespace HTMLWriter

/-- `HTMLWriter::new` (lib.rs:232-237): default indent step size 4. -/
def new : HTMLWriter :=
  { content := [], core := WriterCore.new 4 }

/-- `HTMLWriter::open_tag` (lib.rs:250-256): asserts the notation, appends
`<tag>`, pushes `tag` onto the block stack. -/
def open_tag (w : HTMLWriter) (tag : Str) : Option HTMLWriter :=
  if assert_html_notation tag then
    some { w with
      content := w.content ++ ['<'] ++ tag ++ ['>'],
      core := { w.core with block_stack := tag :: w.core.block_stack } }
  else
    none

/-- `HTMLWriter::close_tag` (lib.rs:266-271): pops the stack (panic when
empty), appends `</tag>`. -/
def close_tag (w : HTMLWriter) : Option HTMLWriter :=
  match w.core.block_stack with
  | [] => none
  | tag :: rest =>
    some { w with
      content := w.content ++ ['<', '/'] ++ tag ++ ['>'],
      core := { w.core with block_stack := rest } }

/-- The text ` name="value"` appended per property by the tag-based writers. -/
def propChunk (p : Str × Str) : Str :=
  [' '] ++ p.1 ++ ['=', '\"'] ++ p.2 ++ ['\"']

/-- `HTMLWriter::add_property` (lib.rs:290-300): asserts the notation on the
name, removes the final `>`, appends ` name="value">`. -/
def add_property (w : HTMLWriter) (prop value : Str) : Option HTMLWriter :=
  if assert_html_notation prop then
    some { w with content := w.content.dropLast ++ propChunk (prop, value) ++ ['>'] }
  else
    none

/-- `HTMLWriter::add_properties` (lib.rs:303-312): removes the final `>`,
appends ` name="value"` for each pair in order, then appends `>`. No
notation check is performed. -/
def add_properties (w : HTMLWriter) (ps : List (Str × Str)) : HTMLWriter :=
  { w with
    content := ps.foldl (fun c p => c ++ propChunk p) w.content.dropLast ++ ['>'] }

/-- `HTMLWriter::clear` (lib.rs:336-339). -/
def clear (w : HTMLWriter) : HTMLWriter :=
  { content := [], core := w.core.clear 4 }

/-- `inc_indent_step`/`dec_indent_step` trait methods delegate to the core
(lib.rs:328-330). -/
def inc_indent_step (w : HTMLWriter) : HTMLWriter :=
  { w with core := w.core.inc_indent_step }

def dec_indent_step (w : HTMLWriter) : HTMLWriter :=
  { w with core := w.core.dec_indent_step }

end HTMLWriter

/-- Embeds `XMLWriter` (lib.rs:370-376). -/
structure XMLWriter where
  content : Str
  core : WriterCore
deriving DecidableEq

namespace XMLWriter

/-- `XMLWriter::new` (lib.rs:380-385): the core is constructed with
indent step size 2. -/
def new : XMLWriter :=
  { content := [], core := WriterCore.new 2 }

/-- `XMLWriter::open_tag` (lib.rs:398-404). -/
def open_tag (w : XMLWriter) (tag : Str) : Option XMLWriter :=
  if assert_html_notation tag then
    some { w with
      content := w.content ++ ['<'] ++ tag ++ ['>'],
      core := { w.core with block_stack := tag :: w.core.block_stack } }
  else
    none

/-- `XMLWriter::close_tag` (lib.rs:414-419). -/
def close_tag (w : XMLWriter) : Option XMLWriter :=
  match w.core.block_stack with
  | [] => none
  | tag :: rest =>
    some { w with
      content := w.content ++ ['<', '/'] ++ tag ++ ['>'],
      core := { w.core with block_stack := rest } }

/-- `XMLWriter::add_property` (lib.rs:438-448). -/
def add_property (w : XMLWriter) (name value : Str) : Option XMLWriter :=
  if assert_html_notation name then
    some { w with content := w.content.dropLast ++ HTMLWriter.propChunk (name, value) ++ ['>'] }
  else
    none

/-- `XMLWriter::add_properties` (lib.rs:458-467). -/
def add_properties (w : XMLWriter) (ps : List (Str × Str)) : XMLWriter :=
  { w with
    content := ps.foldl (fun c p => c ++ HTMLWriter.propChunk p) w.content.dropLast ++ ['>'] }

/-- `XMLWriter::clear` (lib.rs:484-487). -/
def clear (w : XMLWriter) : XMLWriter :=
  { content := [], core := w.core.clear 2 }

def inc_indent_step (w : XMLWriter) : XMLWriter :=
  { w with core := w.core.inc_indent_step }

def dec_indent_step (w : XMLWriter) : XMLWriter :=
  { w with core := w.core.dec_indent_step }

end XMLWriter

/-- Embeds `JSONWriter` (lib.rs:519-527). -/
structure JSONWriter where
  content : Str
  core : WriterCore
  comment_cnt : Nat
deriving DecidableEq

namespace JSONWriter

/-- `JSONWriter::new` (lib.rs:539-545): default indent step size 2, comment
counter 0. -/
def new : JSONWriter :=
  { content := [], core := WriterCore.new 2, comment_cnt := 0 }

/-- `JSONWriter::prepare_property_write` (lib.rs:549-559): when the content
ends with an opening brace, line feed with indent increment; otherwise, when
the content is non-empty, a comma, a newline and the current indent. -/
def prepare_property_write (w : JSONWriter) : JSONWriter :=
  if w.content.getLast? = some '\x7b' then
    let r := w.core.line_feed_inc w.content
    { w with core := r.1, content := r.2 }
  else if w.content ≠ [] then
    { w with content := w.content ++ [',', '\n'] ++ w.core.indent }
  else w

/-- `JSONWriter::open_tag` (lib.rs:567-578): prepare, then either
`"tag":\n<indent>\x7b` or a bare opening brace for the empty tag. -/
def open_tag (w : JSONWriter) (tag : Str) : JSONWriter :=
  let w := w.prepare_property_write
  if tag ≠ [] then
    { w with content := w.content ++ ['\"'] ++ tag ++ ['\"', ':', '\n'] ++ w.core.indent ++ ['\x7b'] }
  else
    { w with content := w.content ++ ['\x7b'] }

/-- `JSONWriter::close_tag` (lib.rs:587-590): line feed with indent
decrement, then the closing brace. -/
def close_tag (w : JSONWriter) : JSONWriter :=
  let r := w.core.line_feed_dec w.content
  { w with core := r.1, content := r.2 ++ ['\x7d'] }

/-- `JSONWriter::add_property` (lib.rs:604-610): prepare, then
`"name": value`. -/
def add_property (w : JSONWriter) (name value : Str) : JSONWriter :=
  let w := w.prepare_property_write
  { w with content := w.content ++ ['\"'] ++ name ++ ['\"', ':', ' '] ++ value }

/-- `JSONWriter::add_properties` (lib.rs:613-615): `add_property` for each
pair in order. -/
def add_properties (w : JSONWriter) (ps : List (Str × Str)) : JSONWriter :=
  ps.foldl (fun w p => w.add_property p.1 p.2) w

/-- `JSONWriter::add_comment` (lib.rs:618-624): increments the comment
counter, then adds the property `_commentN` with the quoted comment. -/
def add_comment (w : JSONWriter) (comment : Str) : JSONWriter :=
  let w' : JSONWriter := { w with comment_cnt := w.comment_cnt + 1 }
  let prop : Str := "_comment".toList ++ (Nat.repr w'.comment_cnt).toList
  let value : Str := ['\"'] ++ comment ++ ['\"']
  w'.add_property prop value

/-- `JSONWriter::clear` (lib.rs:641-644): resets the core with step size 2
and empties the content; `comment_cnt` is not touched. -/
def clear (w : JSONWriter) : JSONWriter :=
  { content := [], core := w.core.clear 2, comment_cnt := w.comment_cnt }

def inc_indent_step (w : JSONWriter) : JSONWriter :=
  { w with core := w.core.inc_indent_step }

def dec_indent_step (w : JSONWriter) : JSONWriter :=
  { w with core := w.core.dec_indent_step }

end JSONWriter

/-- Calling `HTMLWriter::add_property` once per pair, in order, propagating
the panic (`none`). -/
def seqAddHTML : HTMLWriter → List (Str × Str) → Option HTMLWriter
  | w, [] => some w
  | w, p :: ps =>
    match w.add_property p.1 p.2 with
    | none => none
    | some w' => seqAddHTML w' ps

/-- Calling `XMLWriter::add_property` once per pair, in order. -/
def seqAddXML : XMLWriter → List (Str × Str) → Option XMLWriter
  | w, [] => some w
  | w, p :: ps =>
    match w.add_property p.1 p.2 with
    | none => none
    | some w' => seqAddXML w' ps

/-- Calling `JSONWriter::add_property` once per pair, in order (never
fails). -/
def seqAddJSON : JSONWriter → List (Str × Str) → JSONWriter
  | w, [] => w
  | w, p :: ps => seqAddJSON (w.add_property p.1 p.2) ps

/-- The claimed invariant: the current indent is a whole-number multiple of
`indent_step_size` space characters. -/
def IndentInv (w : WriterCore) : Prop :=
  ∃ k, w.indent = List.replicate (k * w.indent_step_size) ' '

-- Sanity examples reproducing the crate's own unit tests (lib.rs:856-895).
example :
    ((JSONWriter.new.open_tag []).close_tag).content = "\x7b\n\x7d".toList := by
  decide

example :
    (((((JSONWriter.new.open_tag []).add_property "Name".toList "\"Eberhardt\"".toList).add_property
      "Vorname".toList "\"Michael\"".toList).open_tag "Daten".toList)).content =
    "\x7b\n  \"Name\": \"Eberhardt\",\n  \"Vorname\": \"Michael\",\n  \"Daten\":\n  \x7b".toList := by
  decide

/-! ## Helper lemmas -/

/-- `dec_indent_step` always leaves the first `length - step` characters of
the indent: in the underflow branch the subtraction is zero, so both
branches are one `take`. -/
theorem WriterCore.dec_indent_step_indent (w : WriterCore) :
    w.dec_indent_step.indent = w.indent.take (w.indent.length - w.indent_step_size) := by
  unfold WriterCore.dec_indent_step
  split
  · next hgt =>
    have h0 : w.indent.length - w.indent_step_size = 0 := by omega
    simp [h0]
  · rfl

/-- `assert_html_notation` characterised pointwise: every character is ASCII
alphanumeric and, when alphabetic, lowercase. -/
theorem assert_html_notation_iff (tag : Str) :
    assert_html_notation tag = true ↔
      ∀ c ∈ tag, c.isAlphanum = true ∧ (c.isAlpha = true → c.isLower = true) := by
  simp only [ assert_html_notation, Bool.and_eq_true, List.all_eq_true, List.mem_filter]
  constructor
  · rintro ⟨h1, h2⟩ c hc
    exact ⟨h1 c hc, fun ha => h2 c ⟨hc, ha⟩⟩
  · intro h
    exact ⟨fun c hc => (h c hc).1, fun c hc => (h c hc.1).2 hc.2⟩

/-! ## Claim theorems -/

/-- C1: on a fresh `JSONWriter` (default step size 2), the sequence
`open_tag("")`, `add_property("a","1")`, `add_property("b","2")`,
`close_tag()` leaves the content equal to `\x7b\n  "a": 1,\n  "b": 2\n\x7d`:
no comma before the first entry after the opening brace, comma plus newline
at the current indent before the second entry, newline with decreased indent
before the closing brace. -/
theorem C1_json_separator_rule :
    ((((JSONWriter.new.open_tag []).add_property "a".toList "1".toList).add_property
      "b".toList "2".toList).close_tag).content =
    "\x7b\n  \"a\": 1,\n  \"b\": 2\n\x7d".toList := by
  decide

/-- C6: for every `WriterCore` state and any step size,
`inc_indent_step` followed by `dec_indent_step` restores the whole state,
and a single `dec_indent_step` truncates the indent by the step size with
saturation at the empty string (`List.take` of the truncated length, which
is `take 0 = []` once the indent is shorter than the step); the same round
trip holds at the level of each of the three writers. -/
theorem C6_inc_dec_roundtrip :
    ∀ (w : WriterCore) (h : HTMLWriter) (x : XMLWriter) (j : JSONWriter),
      w.inc_indent_step.dec_indent_step = w ∧
      w.dec_indent_step.indent = w.indent.take (w.indent.length - w.indent_step_size) ∧
      (w.indent.length < w.indent_step_size → w.dec_indent_step.indent = []) ∧
      h.inc_indent_step.dec_indent_step = h ∧
      x.inc_indent_step.dec_indent_step = x ∧
      j.inc_indent_step.dec_indent_step = j := by
  have core_rt : ∀ (w : WriterCore), w.inc_indent_step.dec_indent_step = w := by
    intro w
    unfold WriterCore.inc_indent_step WriterCore.dec_indent_step
    rw [if_neg (by simp only [List.length_append, List.length_replicate]; omega)]
    simp
  intro w h x j
  refine ⟨core_rt w, w.dec_indent_step_indent, ?_, ?_, ?_, ?_⟩
  · intro hlt
    rw [w.dec_indent_step_indent]
    have h0 : w.indent.length - w.indent_step_size = 0 := by omega
    simp [h0]
  · show ({ h with core := h.core.inc_indent_step.dec_indent_step } : HTMLWriter) = h
    rw [core_rt]
  · show ({ x with core := x.core.inc_indent_step.dec_indent_step } : XMLWriter) = x
    rw [core_rt]
  · show ({ j with core := j.core.inc_indent_step.dec_indent_step } : JSONWriter) = j
    rw [core_rt]

/-- C8: for each of the three writers, `clear` resets the content buffer,
the indent string and the block stack to empty, from any prior state, and
`clear` is idempotent. -/
theorem C8_clear_resets_and_idempotent :
    ∀ (h : HTMLWriter) (x : XMLWriter) (j : JSONWriter),
      (h.clear.content = [] ∧ h.clear.core.indent = [] ∧
        h.clear.core.block_stack = [] ∧ h.clear.clear = h.clear) ∧
      (x.clear.content = [] ∧ x.clear.core.indent = [] ∧
        x.clear.core.block_stack = [] ∧ x.clear.clear = x.clear) ∧
      (j.clear.content = [] ∧ j.clear.core.indent = [] ∧
        j.clear.core.block_stack = [] ∧ j.clear.clear = j.clear) := by
  intro h x j
  exact ⟨⟨rfl, rfl, rfl, rfl⟩, ⟨rfl, rfl, rfl, rfl⟩, ⟨rfl, rfl, rfl, rfl⟩⟩

/-- C9 counterexample: `XMLWriter::new` constructs its core with indent step
size 2, not 4 as the claim states. -/
theorem C9_xml_default_step_size_cex :
    XMLWriter.new.core.indent_step_size = 2 ∧ XMLWriter.new.core.indent_step_size ≠ 4 := by
  decide

/-- C9 amended: `JSONWriter::new` yields indent step size 2,
`HTMLWriter::new` yields 4, and `XMLWriter::new` yields 2 (the historical
XML variant default), not 4. -/
theorem C9_default_step_sizes :
    JSONWriter.new.core.indent_step_size = 2 ∧
    HTMLWriter.new.core.indent_step_size = 4 ∧
    XMLWriter.new.core.indent_step_size = 2 := by
  decide

/-- C10: `JSONWriter.clear` leaves `comment_cnt` unchanged, and an
`add_comment` made after `clear` numbers the comment property
`_comment(N+1)` where `N` is the counter before the clear, rather than
restarting at `_comment1`. -/
theorem C10_clear_keeps_comment_cnt :
    ∀ (j : JSONWriter) (c : Str),
      j.clear.comment_cnt = j.comment_cnt ∧
      (j.clear.add_comment c).comment_cnt = j.comment_cnt + 1 ∧
      (j.clear.add_comment c).content =
        ['\"'] ++ ("_comment".toList ++ (Nat.repr (j.comment_cnt + 1)).toList) ++
          ['\"', ':', ' '] ++ (['\"'] ++ c ++ ['\"']) := by
  intro j c
  refine ⟨rfl, rfl, ?_⟩
  simp [JSONWriter.clear, JSONWriter.add_comment, JSONWriter.add_property,
    JSONWriter.prepare_property_write]

/-- C2: for every valid tag name (non-empty, ASCII alphanumeric, alphabetic
characters lowercase), `open_tag(t)` immediately followed by `close_tag()`
on an `HTMLWriter` or `XMLWriter` appends exactly `<t></t>` to the content
and restores the block stack, the closing name coming from the popped stack
entry. -/
theorem C2_open_close_yields_matched_pair :
    ∀ (t : Str), t ≠ [] → assert_html_notation t = true →
    ∀ (h : HTMLWriter) (x : XMLWriter),
      (h.open_tag t).bind HTMLWriter.close_tag =
        some { content := h.content ++ ['<'] ++ t ++ ['>'] ++ ['<', '/'] ++ t ++ ['>'],
               core := h.core } ∧
      (x.open_tag t).bind XMLWriter.close_tag =
        some { content := x.content ++ ['<'] ++ t ++ ['>'] ++ ['<', '/'] ++ t ++ ['>'],
               core := x.core } := by
  intro t _hne hval h x
  constructor
  · simp [HTMLWriter.open_tag, HTMLWriter.close_tag, hval]
  · simp [XMLWriter.open_tag, XMLWriter.close_tag, hval]

theorem C2_witness :
    ("div".toList ≠ ([] : Str) ∧ assert_html_notation "div".toList = true) ∧
    ((HTMLWriter.new.open_tag "div".toList).bind HTMLWriter.close_tag =
      some { content := HTMLWriter.new.content ++ ['<'] ++ "div".toList ++ ['>'] ++
               ['<', '/'] ++ "div".toList ++ ['>'],
             core := HTMLWriter.new.core } ∧
     (XMLWriter.new.open_tag "div".toList).bind XMLWriter.close_tag =
      some { content := XMLWriter.new.content ++ ['<'] ++ "div".toList ++ ['>'] ++
               ['<', '/'] ++ "div".toList ++ ['>'],
             core := XMLWriter.new.core }) :=
  ⟨⟨by decide, by decide⟩,
    C2_open_close_yields_matched_pair "div".toList (by decide) (by decide)
      HTMLWriter.new XMLWriter.new⟩

/-- C3 counterexample: the claim says the tag-based writers' `open_tag`
must fail for the empty string, but `assert_html_notation` accepts it
vacuously: on a fresh `HTMLWriter` and a fresh `XMLWriter`, `open_tag("")`
succeeds, appending `<>` and pushing the empty name onto the block
stack. -/
theorem C3_empty_tag_accepted_cex :
    HTMLWriter.new.open_tag [] =
      some { content := ['<', '>'],
             core := { indent_step_size := 4, indent := [], block_stack := [[]] } } ∧
    XMLWriter.new.open_tag [] =
      some { content := ['<', '>'],
             core := { indent_step_size := 2, indent := [], block_stack := [[]] } } := by
  decide

/-- C3 amended: on both tag-based writers (`HTMLWriter` and `XMLWriter`),
`open_tag(tag)` fails (assertion panic) exactly when some character of
`tag` is not ASCII alphanumeric or is an uppercase ASCII letter; there is
no non-emptiness check, so the empty tag is accepted. For every accepted
tag it appends `<tag>` and pushes `tag` onto the stack. -/
theorem C3_open_tag_validation_rule :
    ∀ (h : HTMLWriter) (x : XMLWriter) (tag : Str),
      (h.open_tag tag = none ↔
        ¬ ∀ c ∈ tag, c.isAlphanum = true ∧ (c.isAlpha = true → c.isLower = true)) ∧
      ((∀ c ∈ tag, c.isAlphanum = true ∧ (c.isAlpha = true → c.isLower = true)) →
        h.open_tag tag =
          some { content := h.content ++ ['<'] ++ tag ++ ['>'],
                 core := { h.core with block_stack := tag :: h.core.block_stack } }) ∧
      (x.open_tag tag = none ↔
        ¬ ∀ c ∈ tag, c.isAlphanum = true ∧ (c.isAlpha = true → c.isLower = true)) ∧
      ((∀ c ∈ tag, c.isAlphanum = true ∧ (c.isAlpha = true → c.isLower = true)) →
        x.open_tag tag =
          some { content := x.content ++ ['<'] ++ tag ++ ['>'],
                 core := { x.core with block_stack := tag :: x.core.block_stack } }) := by
  intro h x tag
  refine ⟨?_, ?_, ?_, ?_⟩
  · rw [← assert_html_notation_iff]
    unfold HTMLWriter.open_tag
    split
    · next hv => simp [hv]
    · next hv => simp [hv]
  · intro hvalid
    rw [← assert_html_notation_iff] at hvalid
    unfold HTMLWriter.open_tag
    rw [if_pos hvalid]
  · rw [← assert_html_notation_iff]
    unfold XMLWriter.open_tag
    split
    · next hv => simp [hv]
    · next hv => simp [hv]
  · intro hvalid
    rw [← assert_html_notation_iff] at hvalid
    unfold XMLWriter.open_tag
    rw [if_pos hvalid]

theorem C3_witness :
    (∀ c ∈ "div".toList, c.isAlphanum = true ∧ (c.isAlpha = true → c.isLower = true)) ∧
    HTMLWriter.new.open_tag "div".toList =
      some { content := HTMLWriter.new.content ++ ['<'] ++ "div".toList ++ ['>'],
             core := { HTMLWriter.new.core with
               block_stack := "div".toList :: HTMLWriter.new.core.block_stack } } ∧
    XMLWriter.new.open_tag "div".toList =
      some { content := XMLWriter.new.content ++ ['<'] ++ "div".toList ++ ['>'],
             core := { XMLWriter.new.core with
               block_stack := "div".toList :: XMLWriter.new.core.block_stack } } :=
  ⟨by decide,
   (C3_open_tag_validation_rule HTMLWriter.new XMLWriter.new "div".toList).2.1 (by decide),
   (C3_open_tag_validation_rule HTMLWriter.new XMLWriter.new "div".toList).2.2.2 (by decide)⟩

/-- C4: on both tag-based writers, `close_tag` with an empty block stack
fails (the `unwrap` panic, modelled as `none` — nothing is emitted
silently); with a non-empty stack it succeeds, consuming the most recently
pushed name and appending `</name>`. -/
theorem C4_close_tag_underflow :
    ∀ (h : HTMLWriter) (x : XMLWriter),
      (h.core.block_stack = [] → h.close_tag = none) ∧
      (∀ t rest, h.core.block_stack = t :: rest →
        h.close_tag = some { content := h.content ++ ['<', '/'] ++ t ++ ['>'],
                             core := { h.core with block_stack := rest } }) ∧
      (x.core.block_stack = [] → x.close_tag = none) ∧
      (∀ t rest, x.core.block_stack = t :: rest →
        x.close_tag = some { content := x.content ++ ['<', '/'] ++ t ++ ['>'],
                             core := { x.core with block_stack := rest } }) := by
  intro h x
  refine ⟨?_, ?_, ?_, ?_⟩
  · intro hs; simp [HTMLWriter.close_tag, hs]
  · intro t rest hs; simp [HTMLWriter.close_tag, hs]
  · intro hs; simp [XMLWriter.close_tag, hs]
  · intro t rest hs; simp [XMLWriter.close_tag, hs]

theorem C4_witness :
    HTMLWriter.new.close_tag = none ∧
    XMLWriter.new.close_tag = none ∧
    ({ content := [], core := { indent_step_size := 4, indent := [], block_stack := ["div".toList] } } : HTMLWriter).close_tag =
      some { content := [] ++ ['<', '/'] ++ "div".toList ++ ['>'],
             core := { indent_step_size := 4, indent := [], block_stack := [] } } ∧
    ({ content := [], core := { indent_step_size := 2, indent := [], block_stack := ["a".toList] } } : XMLWriter).close_tag =
      some { content := [] ++ ['<', '/'] ++ "a".toList ++ ['>'],
             core := { indent_step_size := 2, indent := [], block_stack := [] } } :=
  ⟨(C4_close_tag_underflow HTMLWriter.new XMLWriter.new).1 rfl,
   (C4_close_tag_underflow HTMLWriter.new XMLWriter.new).2.2.1 rfl,
   (C4_close_tag_underflow
      ⟨[], ⟨4, [], ["div".toList]⟩⟩ XMLWriter.new).2.1 "div".toList [] rfl,
   (C4_close_tag_underflow HTMLWriter.new
      ⟨[], ⟨2, [], ["a".toList]⟩⟩).2.2.2 "a".toList [] rfl⟩

/-- On a tag-based writer whose content ends in `>`, sequentially adding
valid properties accumulates the property chunks before the final `>`. -/
theorem seqAddHTML_gt_content (ps : List (Str × Str)) :
    ∀ (c : Str) (core : WriterCore),
      ps.all (fun q => assert_html_notation q.1) = true →
      seqAddHTML ⟨c ++ ['>'], core⟩ ps =
        some ⟨ps.foldl (fun c p => c ++ HTMLWriter.propChunk p) c ++ ['>'], core⟩ := by
  induction ps with
  | nil => intro c core _; rfl
  | cons p ps ih =>
    intro c core hall
    rw [List.all_cons, Bool.and_eq_true] at hall
    show (match HTMLWriter.add_property ⟨c ++ ['>'], core⟩ p.1 p.2 with
      | none => none
      | some w' => seqAddHTML w' ps) = _
    rw [show HTMLWriter.add_property ⟨c ++ ['>'], core⟩ p.1 p.2 =
        some ⟨c ++ HTMLWriter.propChunk p ++ ['>'], core⟩ by
      unfold HTMLWriter.add_property
      rw [if_pos hall.1]
      simp]
    rw [List.foldl_cons]
    exact ih (c ++ HTMLWriter.propChunk p) core hall.2

/-- XML version of `seqAddHTML_gt_content`. -/
theorem seqAddXML_gt_content (ps : List (Str × Str)) :
    ∀ (c : Str) (core : WriterCore),
      ps.all (fun q => assert_html_notation q.1) = true →
      seqAddXML ⟨c ++ ['>'], core⟩ ps =
        some ⟨ps.foldl (fun c p => c ++ HTMLWriter.propChunk p) c ++ ['>'], core⟩ := by
  induction ps with
  | nil => intro c core _; rfl
  | cons p ps ih =>
    intro c core hall
    rw [List.all_cons, Bool.and_eq_true] at hall
    show (match XMLWriter.add_property ⟨c ++ ['>'], core⟩ p.1 p.2 with
      | none => none
      | some w' => seqAddXML w' ps) = _
    rw [show XMLWriter.add_property ⟨c ++ ['>'], core⟩ p.1 p.2 =
        some ⟨c ++ HTMLWriter.propChunk p ++ ['>'], core⟩ by
      unfold XMLWriter.add_property
      rw [if_pos hall.1]
      simp]
    rw [List.foldl_cons]
    exact ih (c ++ HTMLWriter.propChunk p) core hall.2

/-- C5 counterexample: with the single pair `("A","1")` (uppercase name) on
a fresh `HTMLWriter`, the sequential `add_property` call fails on the
notation assertion, while `add_properties` performs no validation and
produces ` A="1">` — the two buffers are not identical. -/
theorem C5_add_properties_validation_cex :
    seqAddHTML HTMLWriter.new [("A".toList, "1".toList)] = none ∧
    HTMLWriter.new.add_properties [("A".toList, "1".toList)] =
      { content := " A=\"1\">".toList, core := WriterCore.new 4 } := by
  decide

/-- C5 amended: `add_properties` agrees with the sequence of `add_property`
calls for the JSON writer unconditionally, and for the tag-based writers on
every non-empty property list whose names all pass the notation check; when
some name fails the check the sequential calls fail while `add_properties`
(which never validates) still rewrites the buffer. -/
theorem C5_add_properties_eq_sequential :
    ∀ (j : JSONWriter) (ps : List (Str × Str)) (h : HTMLWriter) (x : XMLWriter)
      (p : Str × Str),
      j.add_properties ps = seqAddJSON j ps ∧
      ((p :: ps).all (fun q => assert_html_notation q.1) = true →
        seqAddHTML h (p :: ps) = some (h.add_properties (p :: ps)) ∧
        seqAddXML x (p :: ps) = some (x.add_properties (p :: ps))) := by
  intro j ps h x p
  constructor
  · show ps.foldl (fun w q => w.add_property q.1 q.2) j = seqAddJSON j ps
    induction ps generalizing j with
    | nil => rfl
    | cons q qs ih => rw [List.foldl_cons]; exact ih (j.add_property q.1 q.2)
  · intro hall
    have hall' := hall
    rw [List.all_cons, Bool.and_eq_true] at hall'
    constructor
    · show (match HTMLWriter.add_property h p.1 p.2 with
        | none => none
        | some w' => seqAddHTML w' ps) = _
      rw [show HTMLWriter.add_property h p.1 p.2 =
          some ⟨(h.content.dropLast ++ HTMLWriter.propChunk p) ++ ['>'], h.core⟩ by
        unfold HTMLWriter.add_property
        rw [if_pos hall'.1]]
      show seqAddHTML ⟨(h.content.dropLast ++ HTMLWriter.propChunk p) ++ ['>'], h.core⟩ ps = _
      rw [seqAddHTML_gt_content ps _ _ hall'.2]
      unfold HTMLWriter.add_properties
      rw [List.foldl_cons]
    · show (match XMLWriter.add_property x p.1 p.2 with
        | none => none
        | some w' => seqAddXML w' ps) = _
      rw [show XMLWriter.add_property x p.1 p.2 =
          some ⟨(x.content.dropLast ++ HTMLWriter.propChunk p) ++ ['>'], x.core⟩ by
        unfold XMLWriter.add_property
        rw [if_pos hall'.1]]
      show seqAddXML ⟨(x.content.dropLast ++ HTMLWriter.propChunk p) ++ ['>'], x.core⟩ ps = _
      rw [seqAddXML_gt_content ps _ _ hall'.2]
      unfold XMLWriter.add_properties
      rw [List.foldl_cons]

theorem C5_witness :
    (([("a".toList, "1".toList), ("b".toList, "2".toList)] :
        List (Str × Str)).all (fun q => assert_html_notation q.1) = true) ∧
    JSONWriter.new.add_properties [("a".toList, "1".toList)] =
      seqAddJSON JSONWriter.new [("a".toList, "1".toList)] ∧
    seqAddHTML HTMLWriter.new [("a".toList, "1".toList), ("b".toList, "2".toList)] =
      some (HTMLWriter.new.add_properties [("a".toList, "1".toList), ("b".toList, "2".toList)]) ∧
    seqAddXML XMLWriter.new [("a".toList, "1".toList), ("b".toList, "2".toList)] =
      some (XMLWriter.new.add_properties [("a".toList, "1".toList), ("b".toList, "2".toList)]) :=
  ⟨by decide,
   (C5_add_properties_eq_sequential JSONWriter.new [("a".toList, "1".toList)]
      HTMLWriter.new XMLWriter.new ("b".toList, "2".toList)).1,
   ((C5_add_properties_eq_sequential JSONWriter.new [("b".toList, "2".toList)]
      HTMLWriter.new XMLWriter.new ("a".toList, "1".toList)).2 (by decide)).1,
   ((C5_add_properties_eq_sequential JSONWriter.new [("b".toList, "2".toList)]
      HTMLWriter.new XMLWriter.new ("a".toList, "1".toList)).2 (by decide)).2⟩

theorem IndentInv_inc (w : WriterCore) (h : IndentInv w) :
    IndentInv w.inc_indent_step := by
  obtain ⟨k, hk⟩ := h
  refine ⟨k + 1, ?_⟩
  show w.indent ++ List.replicate w.indent_step_size ' ' =
    List.replicate ((k + 1) * w.indent_step_size) ' '
  rw [hk, ← List.replicate_add]
  congr 1
  ring

theorem IndentInv_dec (w : WriterCore) (h : IndentInv w) :
    IndentInv w.dec_indent_step := by
  obtain ⟨k, hk⟩ := h
  refine ⟨k - 1, ?_⟩
  have hsize : w.dec_indent_step.indent_step_size = w.indent_step_size := by
    unfold WriterCore.dec_indent_step; split <;> rfl
  rw [hsize, WriterCore.dec_indent_step_indent, hk]
  simp only [List.length_replicate, List.take_replicate]
  congr 1
  rw [Nat.sub_one_mul]
  exact Nat.min_eq_left (Nat.sub_le _ _)

theorem IndentInv_prepare (w : JSONWriter) (h : IndentInv w.core) :
    IndentInv w.prepare_property_write.core := by
  unfold JSONWriter.prepare_property_write
  split
  · exact IndentInv_inc w.core h
  · split
    · exact h
    · exact h

/-- C7 counterexample: starting from a fresh core with step size 4, one
`inc_indent_step` followed by `set_indent_step_size 3` leaves an indent of
4 spaces with a step size of 3 — not a whole-number multiple, so the
claimed invariant is not preserved by `set_indent_step_size`. -/
theorem C7_set_step_size_breaks_invariant_cex :
    ((WriterCore.new 4).inc_indent_step.set_indent_step_size 3).indent = List.replicate 4 ' ' ∧
    ((WriterCore.new 4).inc_indent_step.set_indent_step_size 3).indent_step_size = 3 ∧
    ¬ IndentInv ((WriterCore.new 4).inc_indent_step.set_indent_step_size 3) := by
  refine ⟨by decide, by decide, ?_⟩
  rintro ⟨k, hk⟩
  have h1 : ((WriterCore.new 4).inc_indent_step.set_indent_step_size 3).indent =
      List.replicate 4 ' ' := by decide
  have h2 : ((WriterCore.new 4).inc_indent_step.set_indent_step_size 3).indent_step_size = 3 := by
    decide
  rw [h1, h2] at hk
  have hlen := congrArg List.length hk
  simp only [List.length_replicate] at hlen
  omega

/-- C7 amended: the indent-is-a-multiple-of-the-step invariant holds
initially and is preserved by `clear`, `inc_indent_step`, `dec_indent_step`
and `set_indent_step`, and by the JSON writer operations that touch the
indent (`open_tag`, `close_tag`, `add_property`) — but not by
`set_indent_step_size`, which changes the step while leaving the indent
unchanged. -/
theorem C7_indent_invariant_preserved :
    ∀ (w : WriterCore) (s n : Nat) (j : JSONWriter) (t v : Str),
      IndentInv (WriterCore.new s) ∧
      IndentInv (w.clear n) ∧
      (IndentInv w → IndentInv w.inc_indent_step) ∧
      (IndentInv w → IndentInv w.dec_indent_step) ∧
      IndentInv (w.set_indent_step n) ∧
      (IndentInv j.core → IndentInv (j.open_tag t).core) ∧
      (IndentInv j.core → IndentInv j.close_tag.core) ∧
      (IndentInv j.core → IndentInv (j.add_property t v).core) := by
  intro w s n j t v
  refine ⟨⟨0, by simp [WriterCore.new]⟩, ⟨0, by simp [WriterCore.clear]⟩,
    IndentInv_inc w, IndentInv_dec w, ⟨n, rfl⟩, ?_, ?_, ?_⟩
  · intro h
    unfold JSONWriter.open_tag
    split
    · exact IndentInv_prepare j h
    · exact IndentInv_prepare j h
  · intro h
    exact IndentInv_dec j.core h
  · intro h
    exact IndentInv_prepare j h

theorem C7_witness :
    IndentInv (WriterCore.new 2) ∧
    IndentInv (WriterCore.new 2).inc_indent_step ∧
    IndentInv (WriterCore.new 2).dec_indent_step ∧
    IndentInv ((WriterCore.new 2).set_indent_step 1) ∧
    IndentInv (JSONWriter.new.open_tag []).core ∧
    IndentInv JSONWriter.new.close_tag.core ∧
    IndentInv (JSONWriter.new.add_property "a".toList "1".toList).core :=
  have hc := C7_indent_invariant_preserved (WriterCore.new 2) 2 1 JSONWriter.new [] "1".toList
  have hd := C7_indent_invariant_preserved (WriterCore.new 2) 2 1 JSONWriter.new
    "a".toList "1".toList
  ⟨hc.1, hc.2.2.1 hc.1, hc.2.2.2.1 hc.1, hd.2.2.2.2.1,
   hc.2.2.2.2.2.1 hc.1, hc.2.2.2.2.2.2.1 hc.1, hd.2.2.2.2.2.2.2 hc.1⟩
